import Mathlib

/-!
# Verification of the speech-synthesis pipeline of `main.py`

Shallow embedding of the audio-stream-to-container pipeline of the
interview-assistant backend: the MIME descriptor parser
(`parse_audio_mime_type`), the container synthesizer (`convert_to_wav`,
built on `struct.pack`), the stream aggregator and fallback policy of
`generate_speech_with_gemini`, and the `speak_text` endpoint handler.

Python strings are embedded as `List Char`, byte sequences as `List Nat`
(each element a byte value), Python's unbounded signed integers as `Int`.
Fallible operations (`struct.pack`, `int(...)`) return `Option`.
-/

namespace InterviewBot

/-! ## Python string primitives -/

/-- Python whitespace for `str.strip()` (ASCII scope: space, tab, LF, CR,
vertical tab, form feed, and the separators 0x1c-0x1f; non-ASCII
Unicode whitespace is outside the modelled character range). -/
def pyIsSpace (c : Char) : Bool :=
  c = ' ' || c = '\t' || c = '\n' || c = '\r' || c = Char.ofNat 11 || c = Char.ofNat 12 ||
    c = Char.ofNat 28 || c = Char.ofNat 29 || c = Char.ofNat 30 || c = Char.ofNat 31

/-- The whitespace `int(...)` accepts around a numeral (ASCII scope:
space, tab, LF, CR, vertical tab, form feed — unlike `str.strip()`,
`int` does not accept the separators 0x1c-0x1f). -/
def pyIntIsSpace (c : Char) : Bool :=
  c = ' ' || c = '\t' || c = '\n' || c = '\r' || c = Char.ofNat 11 || c = Char.ofNat 12

/-- Drop leading and trailing characters satisfying `p`. -/
def stripBy (p : Char → Bool) (s : List Char) : List Char :=
  ((s.dropWhile p).reverse.dropWhile p).reverse

/-- `str.strip()`: drop leading and trailing whitespace. -/
def pyStrip (s : List Char) : List Char :=
  stripBy pyIsSpace s

/-- The stripping `int(...)` applies before parsing its numeral. -/
def pyIntStrip (s : List Char) : List Char :=
  stripBy pyIntIsSpace s

/-- `str.lower()` (ASCII behaviour). -/
def pyLower (s : List Char) : List Char :=
  s.map Char.toLower

/-- `s.startswith(pat)`. -/
def pyStarts : List Char → List Char → Bool
  | _, [] => true
  | [], _ :: _ => false
  | x :: xs, y :: ys => x = y && pyStarts xs ys

/-- `pat in s` (contiguous-substring test of Python's `in`). -/
def pyContains (pat : List Char) : List Char → Bool
  | [] => pyStarts [] pat
  | x :: xs => pyStarts (x :: xs) pat || pyContains pat xs

/-- The remainder of `s` after the first occurrence of `c`, i.e.
`s.split(c, 1)[1]`; `none` when `c` does not occur (where Python's `[1]`
raises `IndexError`). -/
def afterFirst (c : Char) : List Char → Option (List Char)
  | [] => none
  | x :: xs => if x = c then some xs else afterFirst c xs

/-- `s.split(c)` (split on every occurrence of the one-character
separator; Python returns `[""]` on the empty string). -/
def pySplit (c : Char) : List Char → List (List Char)
  | [] => [[]]
  | x :: xs =>
    let r := pySplit c xs
    if x = c then [] :: r
    else
      match r with
      | h :: t => (x :: h) :: t
      | [] => [[x]]

/-! ## Python `int(...)` on strings

`int(s)` strips whitespace, accepts an optional sign, then a nonempty run
of ASCII digits in which single underscores may separate digits; anything
else raises `ValueError` (here: `none`). -/

/-- Digit tail after the first digit: digits, with single underscores
allowed only between digits. `afterUnd` records that the previous
character was an underscore (which must be followed by a digit and must
not end the token). -/
def pyDigitsGo : Bool → Nat → List Char → Option Nat
  | afterUnd, acc, [] => if afterUnd then none else some acc
  | afterUnd, acc, c :: cs =>
    if c.isDigit then pyDigitsGo false (acc * 10 + (c.toNat - 48)) cs
    else if c = '_' && !afterUnd then pyDigitsGo true acc cs
    else none

/-- A nonempty unsigned digit run. -/
def pyUnsigned : List Char → Option Nat
  | [] => none
  | c :: cs => if c.isDigit then pyDigitsGo false (c.toNat - 48) cs else none

/-- `int(s)` for an embedded Python string. -/
def pyInt (s : List Char) : Option Int :=
  match pyIntStrip s with
  | [] => none
  | c :: cs =>
    if c = '+' then (pyUnsigned cs).map Int.ofNat
    else if c = '-' then (pyUnsigned cs).map (fun n => -(n : Int))
    else (pyUnsigned (c :: cs)).map Int.ofNat

/-! ## `parse_audio_mime_type` (main.py lines 149-173) -/

/-- The descriptor dictionary returned by `parse_audio_mime_type`. -/
structure AudioDescriptor where
  bits_per_sample : Int
  rate : Int
deriving DecidableEq, Repr

/-- The characters of the Python literal `"rate="`. -/
def ratePat : List Char := ['r', 'a', 't', 'e', '=']

/-- The characters of the Python literal `"audio/L"`. -/
def audioLPat : List Char := ['a', 'u', 'd', 'i', 'o', '/', 'L']

/-- One iteration of the `for param in parts` loop of
`parse_audio_mime_type`: strip the segment, try the (case-insensitive)
`rate=` branch, else the (case-sensitive) `audio/L` branch, swallowing
`ValueError`/`IndexError`. -/
def parseParam (d : AudioDescriptor) (param0 : List Char) : AudioDescriptor :=
  let param := pyStrip param0
  if pyStarts (pyLower param) ratePat then
    match afterFirst '=' param >>= pyInt with
    | some r => { d with rate := r }
    | none => d
  else if pyStarts param audioLPat then
    match afterFirst 'L' param >>= pyInt with
    | some b => { d with bits_per_sample := b }
    | none => d
  else d

/-- `parse_audio_mime_type(mime_type)`: defaults 16 bits / 24000 Hz,
overwritten by any segment that parses. -/
def parse_audio_mime_type (mime_type : List Char) : AudioDescriptor :=
  (pySplit ';' mime_type).foldl parseParam ⟨16, 24000⟩

/-! ## `convert_to_wav` (main.py lines 175-206)

The header is written with `struct.pack("<4sI4s4sIHHIIHH4sI", ...)`:
unsigned 32-bit (`I`) and 16-bit (`H`) little-endian fields, which
`struct.pack` range-checks (it raises `struct.error` for a value outside
`[0, 2^32)` resp. `[0, 2^16)`); all fields are checked before any byte is
produced, so the pack is modelled as one guarded `Option`. -/

/-- Little-endian bytes of a 32-bit value (caller guarantees range). -/
def u32le (n : Nat) : List Nat :=
  [n % 256, n / 256 % 256, n / 65536 % 256, n / 16777216 % 256]

/-- Little-endian bytes of a 16-bit value (caller guarantees range). -/
def u16le (n : Nat) : List Nat :=
  [n % 256, n / 256 % 256]

/-- `struct.pack`'s range check for format `I`. -/
def fitsU32 (v : Int) : Prop := 0 ≤ v ∧ v < 4294967296

/-- `struct.pack`'s range check for format `H`. -/
def fitsU16 (v : Int) : Prop := 0 ≤ v ∧ v < 65536

instance (v : Int) : Decidable (fitsU32 v) := by unfold fitsU32; infer_instance
instance (v : Int) : Decidable (fitsU16 v) := by unfold fitsU16; infer_instance

/-- Byte values of the ASCII tag `"RIFF"`. -/
def riffTag : List Nat := [82, 73, 70, 70]
/-- Byte values of the ASCII tag `"WAVE"`. -/
def waveTag : List Nat := [87, 65, 86, 69]
/-- Byte values of the ASCII tag `"fmt "`. -/
def fmtTag : List Nat := [102, 109, 116, 32]
/-- Byte values of the ASCII tag `"data"`. -/
def dataTag : List Nat := [100, 97, 116, 97]

/-- `struct.pack("<4sI4s4sIHHIIHH4sI", b"RIFF", chunk_size, b"WAVE",
b"fmt ", 16, 1, num_channels, sample_rate, byte_rate, block_align,
bits_per_sample, b"data", data_size)` with `num_channels = 1`;
`none` models the `struct.error` raised on an out-of-range field. -/
def packHeader (chunk_size sample_rate byte_rate block_align bits_per_sample data_size : Int) :
    Option (List Nat) :=
  if fitsU32 chunk_size ∧ fitsU32 sample_rate ∧ fitsU32 byte_rate ∧
      fitsU16 block_align ∧ fitsU16 bits_per_sample ∧ fitsU32 data_size then
    some (riffTag ++ u32le chunk_size.toNat ++ waveTag ++ fmtTag ++
      u32le 16 ++ u16le 1 ++ u16le 1 ++ u32le sample_rate.toNat ++
      u32le byte_rate.toNat ++ u16le block_align.toNat ++
      u16le bits_per_sample.toNat ++ dataTag ++ u32le data_size.toNat)
  else none

/-- The packing step of `convert_to_wav` applied to a payload and an
already-parsed descriptor: derives `bytes_per_sample = bits // 8`
(Python floor division), `block_align`, `byte_rate`,
`chunk_size = 36 + data_size`, packs the 44-byte header and appends the
payload. -/
def synthesizeWav (audio_data : List Nat) (d : AudioDescriptor) : Option (List Nat) :=
  let num_channels : Int := 1
  let data_size : Int := audio_data.length
  let bytes_per_sample : Int := Int.fdiv d.bits_per_sample 8
  let block_align : Int := num_channels * bytes_per_sample
  let byte_rate : Int := d.rate * block_align
  let chunk_size : Int := 36 + data_size
  (packHeader chunk_size d.rate byte_rate block_align d.bits_per_sample data_size).map
    (fun header => header ++ audio_data)

/-- `convert_to_wav(audio_data, mime_type)`: parse the MIME type, then
pack. -/
def convert_to_wav (audio_data : List Nat) (mime_type : List Char) : Option (List Nat) :=
  synthesizeWav audio_data (parse_audio_mime_type mime_type)

/-! ### The text of a raised `struct.error`

When `packHeader` is `none`, the program's `struct.pack` call raised a
`struct.error`, and the *text* of that error matters downstream: the
outer exception handler of `generate_speech_with_gemini` pattern-matches
`str(e)` for a quota signature. The messages below are CPython's
(verified on CPython 3.11): an `I` value above range raises
`'I' format requires 0 <= number <= 4294967295` — whose text contains
`"429"` — a negative `I` value raises `argument out of range`, and an
out-of-range `H` value (either side) raises
`ushort format requires 0 <= number <= 65535`. `struct.pack` processes
arguments left to right, so the first out-of-range field in pack order
determines the message. -/

/-- CPython's message for an `I` value above range (the leading and
trailing characters are ASCII single quotes around the format letter). -/
def msgIHigh : List Char :=
  Char.ofNat 39 :: 'I' :: Char.ofNat 39 ::
    " format requires 0 <= number <= 4294967295".toList

/-- CPython's message for a negative `I` value. -/
def msgILow : List Char := "argument out of range".toList

/-- CPython's message for an out-of-range `H` value. -/
def msgH : List Char := "ushort format requires 0 <= number <= 65535".toList

/-- The message of the `struct.error` raised for an out-of-range `I`
value `v`. -/
def msgU32 (v : Int) : List Char :=
  if v < 0 then msgILow else msgIHigh

/-- The message of the `struct.error` the header pack raises: that of
the first out-of-range field in pack order (chunk size, sample rate,
byte rate, block align, bits per sample, data size — the constant
fields cannot fail). Meaningful when `packHeader` is `none`. -/
def packErrorMsg (chunk_size sample_rate byte_rate block_align bits_per_sample data_size : Int) :
    List Char :=
  if ¬fitsU32 chunk_size then msgU32 chunk_size
  else if ¬fitsU32 sample_rate then msgU32 sample_rate
  else if ¬fitsU32 byte_rate then msgU32 byte_rate
  else if ¬fitsU16 block_align then msgH
  else if ¬fitsU16 bits_per_sample then msgH
  else msgU32 data_size

/-- The message of the `struct.error` `convert_to_wav` raises when its
pack fails, for the given payload and MIME type (same derived fields as
`synthesizeWav`). -/
def convertErrorMsg (audio_data : List Nat) (mime_type : List Char) : List Char :=
  let d := parse_audio_mime_type mime_type
  let bytes_per_sample : Int := Int.fdiv d.bits_per_sample 8
  let block_align : Int := 1 * bytes_per_sample
  let byte_rate : Int := d.rate * block_align
  packErrorMsg (36 + audio_data.length) d.rate byte_rate block_align
    d.bits_per_sample audio_data.length

/-! ## The silent-fallback container

Modelled from the spec and CPython's `wave` module writer, which `main.py`
calls with `setnchannels(1)`, `setsampwidth(2)`, `setframerate(24000)` and
48000 bytes of zeros: `Wave_write` emits the canonical 44-byte PCM header
`RIFF, 36 + datalength, WAVE, fmt , 16, 1, nchannels, framerate,
nchannels*framerate*sampwidth, nchannels*sampwidth, sampwidth*8, data,
datalength` followed by the frames (the `wave` module itself is stdlib
code outside this repository). -/

/-- Header bytes the `wave` module writes for the given parameters. -/
def waveModuleHeader (nchannels sampwidth framerate datalength : Nat) : List Nat :=
  riffTag ++ u32le (36 + datalength) ++ waveTag ++ fmtTag ++
    u32le 16 ++ u16le 1 ++ u16le nchannels ++ u32le framerate ++
    u32le (nchannels * framerate * sampwidth) ++ u16le (nchannels * sampwidth) ++
    u16le (sampwidth * 8) ++ dataTag ++ u32le datalength

/-- The minimal silent WAV of `generate_speech_with_gemini`: 1 second of
16-bit 24000 Hz mono silence (`b"\x00\x00" * 24000`). -/
def minimal_wav : List Nat :=
  waveModuleHeader 1 2 24000 48000 ++ List.replicate 48000 0

/-! ## The stream aggregator and orchestrator
(main.py lines 208-338)

A chunk of the upstream stream is embedded by what the loop body observes
of it: no usable candidates/content/parts at all, a first part without
(truthy) inline audio data, or a first part with audio bytes and an
optional MIME type (`inline_data.mime_type` may be `None` in Python). -/

inductive Chunk where
  | empty : Chunk
  | textNote (t : List Char) : Chunk
  | audio (data : List Nat) (mime : Option (List Char)) : Chunk
deriving DecidableEq

/-- One iteration of the streaming `for` loop: a chunk with truthy
`inline_data.data` appends its bytes and, when no MIME type has been
captured yet, captures this chunk's; every other chunk leaves the state
unchanged (logging only). -/
def stepChunk (st : List Nat × Option (List Char)) (c : Chunk) :
    List Nat × Option (List Char) :=
  match c with
  | Chunk.audio data mime =>
    if data.isEmpty then st
    else (st.1 ++ data, if st.2 = none then mime else st.2)
  | _ => st

/-- The aggregation loop over a finite upstream stream: running payload
buffer and captured MIME type. -/
def aggregate (chunks : List Chunk) : List Nat × Option (List Char) :=
  chunks.foldl stepChunk ([], none)

/-- The characters of the Python literal `"429"`. -/
def pat429 : List Char := ['4', '2', '9']

/-- The characters of the Python literal `"RESOURCE_EXHAUSTED"`. -/
def patResourceExhausted : List Char :=
  ['R', 'E', 'S', 'O', 'U', 'R', 'C', 'E', '_',
   'E', 'X', 'H', 'A', 'U', 'S', 'T', 'E', 'D']

/-- The characters of the Python literal `"quota"`. -/
def patQuota : List Char := ['q', 'u', 'o', 't', 'a']

/-- The quota-error signature test of the `except` handler:
`"429" in s or "RESOURCE_EXHAUSTED" in s or "quota" in s.lower()`. -/
def isQuotaError (s : List Char) : Bool :=
  pyContains pat429 s || pyContains patResourceExhausted s ||
    pyContains patQuota (pyLower s)

/-- What one call observes of the upstream provider: either the stream
completes normally yielding a finite chunk sequence, or an exception
(with its message text) is raised during requesting/streaming. -/
inductive Upstream where
  | chunks (cs : List Chunk) : Upstream
  | raises (msg : List Char) : Upstream
deriving DecidableEq

/-- The characters of the extension `".wav"`. -/
def wavExt : List Char := ['.', 'w', 'a', 'v']

/-- The characters of the media type `"audio/wav"`. -/
def audioWavMedia : List Char := ['a', 'u', 'd', 'i', 'o', '/', 'w', 'a', 'v']

/-- `generate_speech_with_gemini`, parameterised by
`mimetypes.guess_extension` (a stdlib lookup table outside this
repository). On a normal stream: empty payload yields the minimal silent
WAV; a captured *truthy* MIME type (`if mime_type:` — `None` and the
empty string are falsy) whose guessed extension is not `.wav` is
converted; a `struct.error` raised inside `convert_to_wav` reaches the
outer `except` handler, which re-inspects `str(e)` — so a message that
happens to match the quota signature (an above-range `I` field:
`... <= 4294967295` contains `"429"`) returns `b""`, and any other
message yields the emergency silent WAV; in every remaining case the raw
payload is returned. On an upstream exception: the quota signature
yields `b""`, anything else the emergency silent WAV. -/
def generate_speech_with_gemini (guessExt : List Char → Option (List Char))
    (u : Upstream) : List Nat :=
  match u with
  | Upstream.raises msg =>
    if isQuotaError msg then [] else minimal_wav
  | Upstream.chunks cs =>
    let st := aggregate cs
    if st.1.isEmpty then minimal_wav
    else
      match st.2 with
      | some mt =>
        if mt.isEmpty then st.1
        else
          let needsWav :=
            match guessExt mt with
            | none => true
            | some ext => ext ≠ wavExt
          if needsWav then
            match convert_to_wav st.1 mt with
            | some w => w
            | none =>
              if isQuotaError (convertErrorMsg st.1 mt) then []
              else minimal_wav
          else st.1
      | none => st.1

/-- The outcome of the `speak_text` endpoint handler, as seen by the HTTP
layer. -/
inductive SpeakResult where
  | ok (body : List Nat) (mediaType : List Char) : SpeakResult
  | clientError (code : Nat) : SpeakResult
deriving DecidableEq

/-- `speak_text(request)`: reject empty/whitespace-only text with a
`ValueError`, caught as HTTP 400, before any upstream call; reject empty
generated audio the same way; otherwise stream the bytes as
`audio/wav`. -/
def speak_text (guessExt : List Char → Option (List Char)) (text : List Char)
    (u : Upstream) : SpeakResult :=
  if text.isEmpty || (pyStrip text).isEmpty then SpeakResult.clientError 400
  else
    let audio_data := generate_speech_with_gemini guessExt u
    if audio_data.isEmpty then SpeakResult.clientError 400
    else SpeakResult.ok audio_data audioWavMedia

/-! ## Claim-side (spec-side) definitions

These restate vocabulary the specification's claims use — which segments
set a descriptor field, the numeric value of a digit token,
payload-bearing chunks, and header-field readback — to compare against
the embedded code. -/

/-- The value a segment assigns to `rate`, when its `rate=` branch is
taken and parses (mirrors the first branch of `parseParam`). -/
def rateSet (param0 : List Char) : Option Int :=
  let param := pyStrip param0
  if pyStarts (pyLower param) ratePat then afterFirst '=' param >>= pyInt
  else none

/-- The value a segment assigns to `bits_per_sample`, when its `audio/L`
branch is taken and parses (mirrors the second branch of
`parseParam`). -/
def bitsSet (param0 : List Char) : Option Int :=
  let param := pyStrip param0
  if pyStarts (pyLower param) ratePat then none
  else if pyStarts param audioLPat then afterFirst 'L' param >>= pyInt
  else none

/-- The numeric value of a decimal digit token. -/
def digitsToNat (s : List Char) : Nat :=
  s.foldl (fun a c => a * 10 + (c.toNat - 48)) 0

/-- A chunk that carries a (truthy, i.e. nonempty) audio payload. -/
def chunkIsPayload : Chunk → Bool
  | Chunk.audio data _ => !data.isEmpty
  | _ => false

/-- The audio bytes of a chunk (empty for non-audio chunks). -/
def chunkData : Chunk → List Nat
  | Chunk.audio data _ => data
  | _ => []

/-- The MIME type carried by a chunk. -/
def chunkMime : Chunk → Option (List Char)
  | Chunk.audio _ mime => mime
  | _ => none

/-- Little-endian 16-bit read of two bytes at offset `i`. -/
def readU16 (bs : List Nat) (i : Nat) : Nat :=
  bs.getD i 0 + 256 * bs.getD (i + 1) 0

/-- Little-endian 32-bit read of four bytes at offset `i`. -/
def readU32 (bs : List Nat) (i : Nat) : Nat :=
  bs.getD i 0 + 256 * bs.getD (i + 1) 0 + 65536 * bs.getD (i + 2) 0 +
    16777216 * bs.getD (i + 3) 0

/-! ## Helper lemmas: Python string primitives -/

lemma dropWhile_eq_self_of {α : Type} (p : α → Bool) (s : List α)
    (h : ∀ c ∈ s, p c = false) : s.dropWhile p = s := by
  cases s with
  | nil => rfl
  | cons a t => simp [List.dropWhile_cons, h a (List.mem_cons_self a t)]

lemma dropWhile_eq_nil_of {α : Type} (p : α → Bool) (s : List α)
    (h : ∀ c ∈ s, p c = true) : s.dropWhile p = [] := by
  induction s with
  | nil => rfl
  | cons a t ih =>
    rw [List.dropWhile_cons, if_pos (h a (List.mem_cons_self a t))]
    exact ih fun c hc => h c (List.mem_cons_of_mem a hc)

lemma stripBy_eq_self {p : Char → Bool} {s : List Char}
    (h : ∀ c ∈ s, p c = false) : stripBy p s = s := by
  unfold stripBy
  rw [dropWhile_eq_self_of _ _ h,
    dropWhile_eq_self_of _ _ (fun c hc => h c (by simpa using hc)),
    List.reverse_reverse]

lemma stripBy_eq_nil {p : Char → Bool} {s : List Char}
    (h : ∀ c ∈ s, p c = true) : stripBy p s = [] := by
  unfold stripBy
  rw [dropWhile_eq_nil_of _ _ h]
  rfl

lemma pyStrip_eq_self {s : List Char} (h : ∀ c ∈ s, pyIsSpace c = false) :
    pyStrip s = s :=
  stripBy_eq_self h

lemma pyStrip_eq_nil {s : List Char} (h : ∀ c ∈ s, pyIsSpace c = true) :
    pyStrip s = [] :=
  stripBy_eq_nil h

lemma space_not_digit {c : Char} (h : pyIsSpace c = true) : c.isDigit = false := by
  simp only [pyIsSpace, Bool.or_eq_true, decide_eq_true_eq] at h
  rcases h with ((((((((h | h) | h) | h) | h) | h) | h) | h) | h) | h <;>
    subst h <;> decide

lemma digit_not_space {c : Char} (h : c.isDigit = true) : pyIsSpace c = false := by
  cases hs : pyIsSpace c with
  | false => rfl
  | true => rw [space_not_digit hs] at h; exact Bool.noConfusion h

lemma intspace_not_digit {c : Char} (h : pyIntIsSpace c = true) :
    c.isDigit = false := by
  simp only [pyIntIsSpace, Bool.or_eq_true, decide_eq_true_eq] at h
  rcases h with ((((h | h) | h) | h) | h) | h <;> subst h <;> decide

lemma digit_not_intspace {c : Char} (h : c.isDigit = true) :
    pyIntIsSpace c = false := by
  cases hs : pyIntIsSpace c with
  | false => rfl
  | true => rw [intspace_not_digit hs] at h; exact Bool.noConfusion h

lemma digit_ne_of {c d : Char} (h : c.isDigit = true) (hd : d.isDigit = false) :
    c ≠ d := by
  intro he
  rw [he, hd] at h
  exact Bool.noConfusion h

lemma not_mem_of_digits {s : List Char} (h : ∀ c ∈ s, c.isDigit = true)
    {d : Char} (hd : d.isDigit = false) : d ∉ s := by
  intro hm
  have hdig := h d hm
  rw [hd] at hdig
  exact Bool.noConfusion hdig

lemma pySplit_of_not_mem {c : Char} {s : List Char} (h : c ∉ s) :
    pySplit c s = [s] := by
  induction s with
  | nil => rfl
  | cons a t ih =>
    have hac : ¬(a = c) := fun he => h (he ▸ List.mem_cons_self a t)
    have hct : c ∉ t := fun hm => h (List.mem_cons_of_mem a hm)
    simp only [pySplit, ih hct, if_neg hac]

lemma pySplit_append {c : Char} {xs ys : List Char} (h : c ∉ xs) :
    pySplit c (xs ++ c :: ys) = xs :: pySplit c ys := by
  induction xs with
  | nil =>
    simp [pySplit]
  | cons a t ih =>
    have hac : ¬(a = c) := fun he => h (he ▸ List.mem_cons_self a t)
    have hct : c ∉ t := fun hm => h (List.mem_cons_of_mem a hm)
    simp only [List.cons_append, pySplit, List.append_eq, ih hct, if_neg hac]

/-! ## Helper lemmas: `int(...)` on digit tokens -/

lemma pyDigitsGo_all_digits (s : List Char) : ∀ acc : Nat,
    (∀ c ∈ s, c.isDigit = true) →
    pyDigitsGo false acc s = some (s.foldl (fun a c => a * 10 + (c.toNat - 48)) acc) := by
  induction s with
  | nil => intro acc _; rfl
  | cons c cs ih =>
    intro acc h
    rw [show pyDigitsGo false acc (c :: cs) =
        (if c.isDigit then pyDigitsGo false (acc * 10 + (c.toNat - 48)) cs
         else if c = '_' && !false then pyDigitsGo true acc cs
         else none) from rfl,
      if_pos (h c (List.mem_cons_self c cs)), List.foldl_cons]
    exact ih _ fun x hx => h x (List.mem_cons_of_mem c hx)

lemma pyUnsigned_all_digits {s : List Char} (hne : s ≠ [])
    (h : ∀ c ∈ s, c.isDigit = true) : pyUnsigned s = some (digitsToNat s) := by
  cases s with
  | nil => exact absurd rfl hne
  | cons c cs =>
    rw [pyUnsigned, if_pos (h c (List.mem_cons_self c cs)),
      pyDigitsGo_all_digits cs _ (fun x hx => h x (List.mem_cons_of_mem c hx))]
    unfold digitsToNat
    rw [List.foldl_cons]
    norm_num

lemma pyInt_all_digits {s : List Char} (hne : s ≠ [])
    (h : ∀ c ∈ s, c.isDigit = true) : pyInt s = some (digitsToNat s : Int) := by
  have hs : pyIntStrip s = s :=
    stripBy_eq_self fun c hc => digit_not_intspace (h c hc)
  cases s with
  | nil => exact absurd rfl hne
  | cons c cs =>
    have hplus : ¬(c = '+') :=
      digit_ne_of (h c (List.mem_cons_self c cs)) (by decide)
    have hminus : ¬(c = '-') :=
      digit_ne_of (h c (List.mem_cons_self c cs)) (by decide)
    unfold pyInt
    rw [hs]
    simp only [if_neg hplus, if_neg hminus]
    rw [pyUnsigned_all_digits hne h]
    rfl

/-! ## Helper lemmas: characterizing `parse_audio_mime_type` -/

lemma parseParam_eq (d : AudioDescriptor) (p : List Char) :
    parseParam d p =
      ⟨(bitsSet p).getD d.bits_per_sample, (rateSet p).getD d.rate⟩ := by
  simp only [parseParam, rateSet, bitsSet]
  split_ifs with h1 h2
  · cases afterFirst '=' (pyStrip p) >>= pyInt with
    | none => rfl
    | some r => rfl
  · cases afterFirst 'L' (pyStrip p) >>= pyInt with
    | none => rfl
    | some b => rfl
  · rfl

lemma getLast?_getD_filterMap_cons (f : List Char → Option Int) (p : List Char)
    (ps : List (List Char)) (b0 : Int) :
    ((ps.filterMap f).getLast?).getD ((f p).getD b0) =
      (((p :: ps).filterMap f).getLast?).getD b0 := by
  cases hf : f p with
  | none => rw [List.filterMap_cons_none hf]; rfl
  | some v =>
    rw [List.filterMap_cons_some hf]
    cases hps : ps.filterMap f with
    | nil => rfl
    | cons x xs =>
      rw [List.getLast?_cons_cons]
      obtain ⟨y, hy⟩ := Option.isSome_iff_exists.mp
        (List.getLast?_isSome.mpr (List.cons_ne_nil x xs))
      rw [hy]
      rfl

lemma parse_foldl (ps : List (List Char)) : ∀ b0 r0 : Int,
    ps.foldl parseParam ⟨b0, r0⟩ =
      ⟨((ps.filterMap bitsSet).getLast?).getD b0,
       ((ps.filterMap rateSet).getLast?).getD r0⟩ := by
  induction ps with
  | nil => intro b0 r0; rfl
  | cons p ps ih =>
    intro b0 r0
    rw [List.foldl_cons, parseParam_eq, ih]
    rw [getLast?_getD_filterMap_cons bitsSet p ps b0,
      getLast?_getD_filterMap_cons rateSet p ps r0]

/-- What `parse_audio_mime_type` computes, per field: the last segment
that successfully sets the field wins; a field never set stays at its
default. -/
lemma parse_characterization (mime : List Char) :
    parse_audio_mime_type mime =
      ⟨(((pySplit ';' mime).filterMap bitsSet).getLast?).getD 16,
       (((pySplit ';' mime).filterMap rateSet).getLast?).getD 24000⟩ :=
  parse_foldl _ 16 24000

/-! ## Helper lemmas: characterizing the aggregator -/

lemma foldl_stepChunk (cs : List Chunk) :
    ∀ (buf : List Nat) (m : Option (List Char)),
    cs.foldl stepChunk (buf, m) =
      (buf ++ ((cs.filter chunkIsPayload).map chunkData).flatten,
       match m with
       | some x => some x
       | none => ((cs.filter chunkIsPayload).filterMap chunkMime).head?) := by
  induction cs with
  | nil =>
    intro buf m
    cases m <;> simp
  | cons c cs ih =>
    intro buf m
    rw [List.foldl_cons]
    cases c with
    | empty =>
      rw [show stepChunk (buf, m) Chunk.empty = (buf, m) from rfl, ih]
      simp [chunkIsPayload]
    | textNote t =>
      rw [show stepChunk (buf, m) (Chunk.textNote t) = (buf, m) from rfl, ih]
      simp [chunkIsPayload]
    | audio data mime =>
      by_cases hd : data.isEmpty
      · rw [show stepChunk (buf, m) (Chunk.audio data mime) = (buf, m) from by
          simp [stepChunk, hd], ih]
        simp [chunkIsPayload, hd]
      · rw [show stepChunk (buf, m) (Chunk.audio data mime) =
            (buf ++ data, if m = none then mime else m) from by
          simp [stepChunk, hd], ih]
        have hfil : (Chunk.audio data mime :: cs).filter chunkIsPayload =
            Chunk.audio data mime :: cs.filter chunkIsPayload := by
          simp [List.filter_cons, chunkIsPayload, hd]
        rw [hfil]
        cases m with
        | some x => simp [chunkData, List.append_assoc]
        | none =>
          cases mime with
          | some y => simp [chunkData, chunkMime, List.append_assoc]
          | none => simp [chunkData, chunkMime, List.append_assoc]

/-- The aggregation loop, characterized: payload is the concatenation in
arrival order of the payloads of payload-bearing chunks; the captured
MIME type is the first present MIME type among payload-bearing chunks. -/
lemma aggregate_characterization (cs : List Chunk) :
    aggregate cs =
      (((cs.filter chunkIsPayload).map chunkData).flatten,
       ((cs.filter chunkIsPayload).filterMap chunkMime).head?) := by
  rw [aggregate, foldl_stepChunk]
  rfl

/-! ## Helper lemmas: the packed header and the silent container -/

lemma take_append_length {α : Type} (l₁ l₂ : List α) :
    (l₁ ++ l₂).take l₁.length = l₁ := by
  induction l₁ with
  | nil => rfl
  | cons a t ih => simp [ih]

lemma drop_append_length {α : Type} (l₁ l₂ : List α) :
    (l₁ ++ l₂).drop l₁.length = l₂ := by
  induction l₁ with
  | nil => rfl
  | cons a t ih => simp [ih]

lemma packHeader_some_eq {a b c d e f : Int} {h : List Nat}
    (hp : packHeader a b c d e f = some h) :
    h = riffTag ++ u32le a.toNat ++ waveTag ++ fmtTag ++ u32le 16 ++ u16le 1 ++
      u16le 1 ++ u32le b.toNat ++ u32le c.toNat ++ u16le d.toNat ++
      u16le e.toNat ++ dataTag ++ u32le f.toNat := by
  unfold packHeader at hp
  split at hp
  · exact (Option.some.inj hp).symm
  · exact Option.noConfusion hp

lemma packHeader_length {a b c d e f : Int} {h : List Nat}
    (hp : packHeader a b c d e f = some h) : h.length = 44 := by
  rw [packHeader_some_eq hp]
  rfl

lemma minimal_wav_length : minimal_wav.length = 44 + 48000 := by
  rw [minimal_wav, List.length_append, List.length_replicate]
  rfl

/-- A `synthesizeWav` success is a 44-byte header followed by the
payload. -/
lemma synthesizeWav_some {p : List Nat} {d : AudioDescriptor} {w : List Nat}
    (hw : synthesizeWav p d = some w) :
    ∃ hdr, w = hdr ++ p ∧ hdr.length = 44 := by
  unfold synthesizeWav at hw
  simp only [Option.map_eq_some'] at hw
  obtain ⟨hdr, hhdr, hw⟩ := hw
  exact ⟨hdr, hw.symm, packHeader_length hhdr⟩

lemma mem_of_getLast? {α : Type} {l : List α} {a : α} (h : l.getLast? = some a) :
    a ∈ l := by
  induction l with
  | nil => exact Option.noConfusion h
  | cons x xs ih =>
    cases xs with
    | nil =>
      rw [List.getLast?_singleton] at h
      rw [Option.some.inj h]
      exact List.mem_cons_self a []
    | cons y ys =>
      rw [List.getLast?_cons_cons] at h
      exact List.mem_cons_of_mem x (ih h)

/-- Claim C4: every exception whose text contains `"429"`, contains
`"RESOURCE_EXHAUSTED"`, or contains `"quota"` case-insensitively makes
`generate_speech_with_gemini` return the zero-length byte sequence as a
normal value (no propagation). -/
theorem quota_sentinel_spec (guessExt : List Char → Option (List Char))
    (msg : List Char)
    (h : pyContains pat429 msg = true ∨ pyContains patResourceExhausted msg = true ∨
      pyContains patQuota (pyLower msg) = true) :
    generate_speech_with_gemini guessExt (Upstream.raises msg) = [] := by
  have hq : isQuotaError msg = true := by
    unfold isQuotaError
    rcases h with h | h | h <;> simp [h]
  simp [generate_speech_with_gemini, hq]

/-- Witness for C4 at the message `"429"`. -/
theorem quota_sentinel_spec_witness :
    generate_speech_with_gemini (fun _ => none)
      (Upstream.raises ['4', '2', '9']) = [] :=
  quota_sentinel_spec _ _ (Or.inl (by decide))

/-- Claim C6: empty or whitespace-only text is rejected by `speak_text`
with HTTP 400, whatever the upstream provider would do (so the upstream
provider is never consulted). -/
theorem speak_text_rejects_blank (text : List Char)
    (h : text = [] ∨ ∀ c ∈ text, pyIsSpace c = true) :
    ∀ (guessExt : List Char → Option (List Char)) (u : Upstream),
      speak_text guessExt text u = SpeakResult.clientError 400 := by
  intro g u
  have hstrip : (pyStrip text).isEmpty = true := by
    rcases h with rfl | h
    · rfl
    · rw [pyStrip_eq_nil h]; rfl
  simp [speak_text, hstrip]

/-- Witness for C6 at the text `" "`. -/
theorem speak_text_rejects_blank_witness :
    speak_text (fun _ => none) [' '] (Upstream.chunks []) =
      SpeakResult.clientError 400 :=
  speak_text_rejects_blank [' '] (Or.inr (by decide)) _ _

/-- Claim C10: a non-empty aggregated payload with no captured MIME type
is returned raw (no header synthesized), and `speak_text` serves those
raw bytes labeled `audio/wav`. -/
theorem raw_payload_no_mime_spec (guessExt : List Char → Option (List Char))
    (cs : List Chunk)
    (h1 : (aggregate cs).1 ≠ []) (h2 : (aggregate cs).2 = none) :
    generate_speech_with_gemini guessExt (Upstream.chunks cs) = (aggregate cs).1 ∧
    speak_text guessExt ['h', 'i'] (Upstream.chunks cs) =
      SpeakResult.ok (aggregate cs).1 audioWavMedia := by
  have hne : (aggregate cs).1.isEmpty = false := by
    cases hl : (aggregate cs).1 with
    | nil => exact absurd hl h1
    | cons a t => rfl
  have hgen : generate_speech_with_gemini guessExt (Upstream.chunks cs) =
      (aggregate cs).1 := by
    simp [generate_speech_with_gemini, hne, h2]
  refine ⟨hgen, ?_⟩
  simp +decide [speak_text, hgen, hne]

/-- Witness for C10 on a one-chunk stream whose audio part carries no
MIME type. -/
theorem raw_payload_no_mime_spec_witness :
    generate_speech_with_gemini (fun _ => none)
      (Upstream.chunks [Chunk.audio [7] none]) =
      (aggregate [Chunk.audio [7] none]).1 ∧
    speak_text (fun _ => none) ['h', 'i'] (Upstream.chunks [Chunk.audio [7] none]) =
      SpeakResult.ok (aggregate [Chunk.audio [7] none]).1 audioWavMedia :=
  raw_payload_no_mime_spec _ _ (by decide) (by decide)

/-- Claim C3: a stream that completes with an empty aggregated payload
and a non-quota exception both produce the same minimal silent
container: 44 + 48000 bytes, mono (bytes 22-23), 24000 Hz (bytes 24-27),
16 bits per sample (bytes 34-35), declared data size 48000
(bytes 40-43), with an all-zero payload. -/
theorem silent_fallback_spec (guessExt : List Char → Option (List Char))
    (cs : List Chunk) (msg : List Char)
    (hempty : (aggregate cs).1 = []) (hq : isQuotaError msg = false) :
    generate_speech_with_gemini guessExt (Upstream.chunks cs) = minimal_wav ∧
    generate_speech_with_gemini guessExt (Upstream.raises msg) = minimal_wav ∧
    minimal_wav.length = 44 + 48000 ∧
    minimal_wav.take 4 = riffTag ∧
    readU16 minimal_wav 22 = 1 ∧
    readU32 minimal_wav 24 = 24000 ∧
    readU16 minimal_wav 34 = 16 ∧
    readU32 minimal_wav 40 = 48000 ∧
    minimal_wav.drop 44 = List.replicate 48000 0 := by
  refine ⟨?_, ?_, minimal_wav_length, by decide, by decide, by decide, by decide,
    by decide, ?_⟩
  · simp [generate_speech_with_gemini, hempty]
  · simp [generate_speech_with_gemini, hq]
  · rw [minimal_wav,
      show (44 : Nat) = (waveModuleHeader 1 2 24000 48000).length from rfl,
      drop_append_length]

/-- Witness for C3 on the empty stream and the message `"x"`. -/
theorem silent_fallback_spec_witness :
    generate_speech_with_gemini (fun _ => none) (Upstream.chunks []) = minimal_wav ∧
    generate_speech_with_gemini (fun _ => none) (Upstream.raises ['x']) = minimal_wav ∧
    minimal_wav.length = 44 + 48000 ∧
    minimal_wav.take 4 = riffTag ∧
    readU16 minimal_wav 22 = 1 ∧
    readU32 minimal_wav 24 = 24000 ∧
    readU16 minimal_wav 34 = 16 ∧
    readU32 minimal_wav 40 = 48000 ∧
    minimal_wav.drop 44 = List.replicate 48000 0 :=
  silent_fallback_spec (fun _ => none) [] ['x'] rfl (by decide)

/-- Claim C5: the aggregator's payload is the concatenation, in arrival
order, of the payloads of the payload-bearing chunks (empty and
text-only chunks are skipped without error); the captured MIME type is
that of the first payload-bearing chunk (whenever that chunk carries
one); and the claim's concrete instance
`[A("audio", m1), T("note"), A("more", m1)]` aggregates to
`("audio" + "more", m1)`. -/
theorem aggregate_spec :
    (∀ cs : List Chunk,
      (aggregate cs).1 = ((cs.filter chunkIsPayload).map chunkData).flatten ∧
      ∀ c m, (cs.filter chunkIsPayload).head? = some c → chunkMime c = some m →
        (aggregate cs).2 = some m) ∧
    ∀ m1 : List Char,
      aggregate [Chunk.audio [97, 117, 100, 105, 111] (some m1),
        Chunk.textNote ['n', 'o', 't', 'e'],
        Chunk.audio [109, 111, 114, 101] (some m1)] =
      ([97, 117, 100, 105, 111] ++ [109, 111, 114, 101], some m1) := by
  constructor
  · intro cs
    rw [aggregate_characterization]
    refine ⟨rfl, ?_⟩
    intro c m hc hm
    cases hfil : cs.filter chunkIsPayload with
    | nil =>
      rw [hfil] at hc
      exact Option.noConfusion hc
    | cons x xs =>
      rw [hfil] at hc
      have hx : x = c := Option.some.inj hc
      subst hx
      rw [List.filterMap_cons_some hm]
      rfl
  · intro m1
    rw [aggregate_characterization]
    rfl

/-- Witness for C5: MIME capture on a concrete two-chunk stream. -/
theorem aggregate_spec_witness :
    (aggregate [Chunk.audio [1] (some ['m']), Chunk.empty]).2 = some ['m'] :=
  (aggregate_spec.1 [Chunk.audio [1] (some ['m']), Chunk.empty]).2
    (Chunk.audio [1] (some ['m'])) ['m'] (by decide) rfl

/-- Counterexample to C1 as stated: for the descriptor
`{bits_per_sample := 65536, rate := 24000}` the bits-per-sample field
overflows `struct.pack`'s 16-bit range check, so the packing step raises
(returns no container) instead of returning a header-plus-payload. -/
theorem synthesizeWav_overflow_cex :
    synthesizeWav [] ⟨65536, 24000⟩ = none := by
  decide

/-- Claim C1 (amended): whenever every derived header field is within
the width `struct.pack` checks it against, the packing step returns
exactly a 44-byte header concatenated with the unmodified payload, with
the little-endian fields in the claimed order, the chunk-size field
encoding `36 + len(P)` and the data-size field encoding `len(P)`. -/
theorem synthesizeWav_header_layout (P : List Nat) (d : AudioDescriptor)
    (hcs : fitsU32 (36 + (P.length : Int)))
    (hr : fitsU32 d.rate)
    (hbr : fitsU32 (d.rate * (1 * Int.fdiv d.bits_per_sample 8)))
    (hba : fitsU16 (1 * Int.fdiv d.bits_per_sample 8))
    (hb : fitsU16 d.bits_per_sample) :
    ∃ hdr,
      synthesizeWav P d = some (hdr ++ P) ∧
      hdr.length = 44 ∧
      hdr = riffTag ++ u32le (36 + P.length) ++ waveTag ++ fmtTag ++
        u32le 16 ++ u16le 1 ++ u16le 1 ++ u32le d.rate.toNat ++
        u32le (d.rate * (1 * Int.fdiv d.bits_per_sample 8)).toNat ++
        u16le (1 * Int.fdiv d.bits_per_sample 8).toNat ++
        u16le d.bits_per_sample.toNat ++ dataTag ++ u32le P.length := by
  have hds : fitsU32 ((P.length : Int)) := by
    unfold fitsU32 at hcs ⊢
    omega
  refine ⟨_, ?_, ?_, rfl⟩
  · simp only [synthesizeWav, packHeader]
    rw [if_pos ⟨hcs, hr, hbr, hba, hb, hds⟩]
    have h1 : (36 + (P.length : Int)).toNat = 36 + P.length := by omega
    have h2 : ((P.length : Int)).toNat = P.length := by omega
    rw [h1, h2]
    rfl
  · rfl

/-- Witness for C1 (amended) at a 3-byte payload and the descriptor
`{16, 24000}`. -/
theorem synthesizeWav_header_layout_witness :
    ∃ hdr, synthesizeWav [1, 2, 3] ⟨16, 24000⟩ = some (hdr ++ [1, 2, 3]) ∧
      hdr.length = 44 := by
  obtain ⟨hdr, h1, h2, h3⟩ := synthesizeWav_header_layout [1, 2, 3] ⟨16, 24000⟩
    (by decide) (by decide) (by decide) (by decide) (by decide)
  exact ⟨hdr, h1, h2⟩

/-! ## Helper lemmas: evaluating `parseParam` on well-formed segments -/

lemma pyStrip_audioL {sb : List Char} (hd : ∀ c ∈ sb, c.isDigit = true) :
    pyStrip (audioLPat ++ sb) = audioLPat ++ sb := by
  refine pyStrip_eq_self ?_
  intro c hc
  rcases List.mem_append.mp hc with h | h
  · fin_cases h <;> decide
  · exact digit_not_space (hd c h)

lemma pyStrip_rate {sr : List Char} (hd : ∀ c ∈ sr, c.isDigit = true) :
    pyStrip (ratePat ++ sr) = ratePat ++ sr := by
  refine pyStrip_eq_self ?_
  intro c hc
  rcases List.mem_append.mp hc with h | h
  · fin_cases h <;> decide
  · exact digit_not_space (hd c h)

lemma parseParam_audioL (sb : List Char) (hne : sb ≠ [])
    (hd : ∀ c ∈ sb, c.isDigit = true) (d : AudioDescriptor) :
    parseParam d (audioLPat ++ sb) =
      { d with bits_per_sample := (digitsToNat sb : Int) } := by
  simp only [parseParam]
  rw [pyStrip_audioL hd]
  rw [show afterFirst 'L' (audioLPat ++ sb) = some sb from by
    simp +decide [audioLPat, afterFirst]]
  simp +decide [audioLPat, ratePat, pyLower, pyStarts,
    pyInt_all_digits hne hd]

lemma parseParam_rate (sr : List Char) (hne : sr ≠ [])
    (hd : ∀ c ∈ sr, c.isDigit = true) (d : AudioDescriptor) :
    parseParam d (ratePat ++ sr) = { d with rate := (digitsToNat sr : Int) } := by
  simp only [parseParam]
  rw [pyStrip_rate hd]
  rw [show afterFirst '=' (ratePat ++ sr) = some sr from by
    simp +decide [ratePat, afterFirst]]
  simp +decide [ratePat, pyLower, pyStarts, pyInt_all_digits hne hd]

/-- Claim C2: the MIME parser is total and permissive. For a well-formed
`audio/L<b>;rate=<r>` input (nonempty digit tokens) it returns exactly
those two values; a field no segment successfully sets keeps its default
(16 bits / 24000 Hz); and on the claim's malformed examples
(`"audio/ogg"`, `""`, `"rate=abc"`) both fields are the defaults. -/
theorem parse_audio_mime_spec :
    (∀ sb sr : List Char, sb ≠ [] → sr ≠ [] →
      (∀ c ∈ sb, c.isDigit = true) → (∀ c ∈ sr, c.isDigit = true) →
      parse_audio_mime_type (audioLPat ++ sb ++ ';' :: (ratePat ++ sr)) =
        ⟨(digitsToNat sb : Int), (digitsToNat sr : Int)⟩) ∧
    (∀ mime, (∀ p ∈ pySplit ';' mime, rateSet p = none) →
      (parse_audio_mime_type mime).rate = 24000) ∧
    (∀ mime, (∀ p ∈ pySplit ';' mime, bitsSet p = none) →
      (parse_audio_mime_type mime).bits_per_sample = 16) ∧
    parse_audio_mime_type ['a', 'u', 'd', 'i', 'o', '/', 'o', 'g', 'g'] =
      ⟨16, 24000⟩ ∧
    parse_audio_mime_type [] = ⟨16, 24000⟩ ∧
    parse_audio_mime_type ['r', 'a', 't', 'e', '=', 'a', 'b', 'c'] =
      ⟨16, 24000⟩ := by
  refine ⟨?_, ?_, ?_, by decide, by decide, by decide⟩
  · intro sb sr hsb hsr hdb hdr
    have hsemi_b : ';' ∉ audioLPat ++ sb := by
      intro hm
      rcases List.mem_append.mp hm with h | h
      · exact absurd h (by decide)
      · exact not_mem_of_digits hdb (by decide) h
    have hsemi_r : ';' ∉ ratePat ++ sr := by
      intro hm
      rcases List.mem_append.mp hm with h | h
      · exact absurd h (by decide)
      · exact not_mem_of_digits hdr (by decide) h
    have hsplit : pySplit ';' (audioLPat ++ sb ++ ';' :: (ratePat ++ sr)) =
        [audioLPat ++ sb, ratePat ++ sr] := by
      rw [List.append_assoc, ← List.append_assoc, pySplit_append hsemi_b,
        pySplit_of_not_mem hsemi_r]
    unfold parse_audio_mime_type
    rw [hsplit, List.foldl_cons, List.foldl_cons, List.foldl_nil,
      parseParam_audioL sb hsb hdb, parseParam_rate sr hsr hdr]
  · intro mime h
    rw [parse_characterization]
    have hnil : (pySplit ';' mime).filterMap rateSet = [] :=
      List.filterMap_eq_nil_iff.mpr h
    simp [hnil]
  · intro mime h
    rw [parse_characterization]
    have hnil : (pySplit ';' mime).filterMap bitsSet = [] :=
      List.filterMap_eq_nil_iff.mpr h
    simp [hnil]

/-- Witness for C2 at the well-formed input `"audio/L16;rate=24000"`. -/
theorem parse_audio_mime_spec_witness :
    parse_audio_mime_type
      (audioLPat ++ ['1', '6'] ++ ';' :: (ratePat ++ ['2', '4', '0', '0', '0'])) =
      ⟨(16 : Int), (24000 : Int)⟩ := by
  rw [parse_audio_mime_spec.1 ['1', '6'] ['2', '4', '0', '0', '0']
    (by decide) (by decide) (by decide) (by decide)]
  decide

/-- Counterexample to C8 as stated: on the input `"audio/L7"` the parser
returns `bits_per_sample = 7`, which is not a positive multiple of 8, so
the descriptor invariant does not hold for every input string. -/
theorem descriptor_invariant_cex :
    (parse_audio_mime_type ['a', 'u', 'd', 'i', 'o', '/', 'L', '7']).bits_per_sample
      = 7 ∧
    ¬(0 < (parse_audio_mime_type
        ['a', 'u', 'd', 'i', 'o', '/', 'L', '7']).bits_per_sample ∧
      (parse_audio_mime_type
        ['a', 'u', 'd', 'i', 'o', '/', 'L', '7']).bits_per_sample % 8 = 0) := by
  decide

/-- Claim C8 (amended): the returned descriptor satisfies the invariant
(bits a positive multiple of 8, rate positive) whenever every segment
value that actually sets a field itself satisfies it — in particular
whenever both fields stay at their defaults. -/
theorem descriptor_invariant_spec (mime : List Char)
    (hb : ∀ b ∈ (pySplit ';' mime).filterMap bitsSet, 0 < b ∧ b % 8 = 0)
    (hr : ∀ r ∈ (pySplit ';' mime).filterMap rateSet, 0 < r) :
    (0 < (parse_audio_mime_type mime).bits_per_sample ∧
      (parse_audio_mime_type mime).bits_per_sample % 8 = 0) ∧
    0 < (parse_audio_mime_type mime).rate := by
  rw [parse_characterization]
  constructor
  · cases hl : ((pySplit ';' mime).filterMap bitsSet).getLast? with
    | none => simp [hl]
    | some b =>
      have hmem := mem_of_getLast? hl
      simp only [hl]
      exact hb b hmem
  · cases hl : ((pySplit ';' mime).filterMap rateSet).getLast? with
    | none => simp [hl]
    | some r =>
      have hmem := mem_of_getLast? hl
      simp only [hl]
      exact hr r hmem

/-- Witness for C8 (amended) at the input `"audio/L8;rate=8000"`. -/
theorem descriptor_invariant_spec_witness :
    (0 < (parse_audio_mime_type
        (audioLPat ++ ['8'] ++ ';' :: (ratePat ++ ['8', '0', '0', '0']))).bits_per_sample ∧
      (parse_audio_mime_type
        (audioLPat ++ ['8'] ++ ';' :: (ratePat ++ ['8', '0', '0', '0']))).bits_per_sample % 8 = 0) ∧
    0 < (parse_audio_mime_type
      (audioLPat ++ ['8'] ++ ';' :: (ratePat ++ ['8', '0', '0', '0']))).rate :=
  descriptor_invariant_spec _ (by decide) (by decide)

end InterviewBot
